import Mathlib

/-!
Shallow embedding of `src/spm_decode_main.cc` (the sentencepiece batch decode
driver).  The driver selects a conversion closure from the
(input_format, output_format) flag pair, then streams input files (or lines)
through it, writing decoded text to a single output sink.

The external collaborators (the `SentencePieceProcessor` model, the
filesystem wrappers `NewReadableFile`/`NewWritableFile`/`ReadLine`/`WriteLine`,
the `CHECK`/`CHECK_OK`/`LOG(FATAL)` macros and `absl::StrSplit`) live in the
repository outside the file under verification; they are modelled abstractly,
faithful to the specification's description of their contracts.  A fatal
abort (`CHECK`, `CHECK_OK`, `LOG(FATAL)`) is modelled as a run outcome
carrying `some` diagnostic message: the process exits with non-zero status
and processes nothing further.  Observable behaviour is modelled as a trace
of events (model load, file opens, decode calls, line writes, error-channel
messages), so ordering and counting claims can be stated directly.
-/

/-- Observable events of one run, in program order: reading the model file,
opening the output sink, opening a text input file, opening a binary input
file, a decode call on the model with a piece batch, a decode call with an
id batch, writing one line to the output sink, and writing a message to the
error channel. -/
inductive Event where
  | loadModel (path : String)
  | openOutput (path : String)
  | openInput (path : String)
  | openBinary (path : String)
  | decodeP (pieces : List String)
  | decodeI (ids : List Int)
  | writeLine (s : String)
  | errMsg (s : String)
deriving DecidableEq, Repr

/-- Modelled from the spec: the external tokenization model
(`sentencepiece::SentencePieceProcessor`, repository code outside the file
under verification).  `load` and `setExtraOpts` mirror `Load` and
`SetDecodeExtraOptions`; the four decode fields mirror the overloads of
`Decode` on piece lists and id lists, producing text or a structured proto
record (the record itself is discarded by the driver, so it is not
modelled).  Each returns `Except`: an `error` result makes the driver's
`CHECK_OK` abort the run. -/
structure SPModel where
  load : String → Except String Unit
  setExtraOpts : String → Except String Unit
  decodePieces : List String → Except String String
  decodeIds : List Int → Except String String
  decodePiecesProto : List String → Except String Unit
  decodeIdsProto : List Int → Except String Unit

/-- Modelled from the spec: the filesystem seen by the run.  `textFile`
returns the list of lines of a line-oriented input file, or `none` when the
file cannot be opened (`NewReadableFile` status not ok); `binFile` returns
the raw bytes of a binary file, or `none` when it cannot be opened;
`canWrite` says whether the output sink opens (`NewWritableFile` status). -/
structure FileSystem where
  textFile : String → Option (List String)
  binFile : String → Option (List Nat)
  canWrite : String → Bool

/-- The run configuration: flag values after command-line parsing, plus the
trailing positional arguments `argv[1..]`. -/
structure Config where
  model : String
  input : String
  output : String
  input_format : String
  output_format : String
  extra_options : String
  positional : List String
deriving DecidableEq

/-- Mirrors `main` lines 71-82: the list of input sources.  If `--input` is
non-empty it is the single source; otherwise every positional argument is a
source; if that leaves nothing, the single source is `""`, meaning standard
input. -/
def restArgs (input : String) (positional : List String) : List String :=
  let r := if input = "" then positional else [input]
  if r = [] then [""] else r

/-- Mirrors the read loop of `readFileToVector` (lines 51-62): consume the
bytes two at a time, little-endian (`result[i] = static_cast<int>(num16)`
where `num16`'s low byte is read first); a trailing odd byte is dropped
because `numElements = size / sizeof(uint16_t)`.  A byte is a machine octet,
hence the explicit `% 256`. -/
def readBytesToVector : List Nat → List Int
  | b0 :: b1 :: rest =>
      ((b0 % 256 + 256 * (b1 % 256) : Nat) : Int) :: readBytesToVector rest
  | _ => []

/-- Mirrors `readFileToVector` (lines 39-66): open the file in binary mode;
on failure print an error to the error channel and return the empty vector;
on success decode the bytes as little-endian 16-bit unsigned values.  The
returned pair is (events of this call, resulting id vector). -/
def readFileToVector (fs : FileSystem) (filename : String) :
    List Event × List Int :=
  match fs.binFile filename with
  | none =>
      ([Event.openBinary filename,
        Event.errMsg ("Error: Unable to open the file: " ++ filename)], [])
  | some bytes => ([Event.openBinary filename], readBytesToVector bytes)

/-- True on the six characters the C `isspace` classifier accepts in the
default locale; `atoi` skips these before parsing. -/
def isCSpace (c : Char) : Bool :=
  c = ' ' ∨ c = '\t' ∨ c = '\n' ∨ c = '\x0b' ∨ c = '\x0c' ∨ c = '\r'

/-- The digit-consuming loop of C `atoi`: fold decimal digits into the
accumulator until the first non-digit, then stop.  Overflow, undefined
behaviour in C, is modelled as unbounded integer arithmetic. -/
def atoiDigits (acc : Int) : List Char → Int
  | [] => acc
  | c :: cs =>
      if c.isDigit then atoiDigits (acc * 10 + ((c.toNat : Int) - 48)) cs
      else acc

/-- C `atoi` on a character list: skip leading whitespace, accept one
optional sign, then consume leading decimal digits; with no digits the
result is 0. -/
def atoiChars : List Char → Int
  | [] => 0
  | c :: cs =>
      if isCSpace c then atoiChars cs
      else if c = '-' then - atoiDigits 0 cs
      else if c = '+' then atoiDigits 0 cs
      else atoiDigits 0 (c :: cs)

/-- Mirrors the C standard library `atoi(s.c_str())` called at line 103. -/
def atoi (s : String) : Int := atoiChars s.data

/-- Mirrors the `ToIds` lambda (lines 99-106): convert every token with
`atoi`. -/
def ToIds (pieces : List String) : List Int := pieces.map atoi

/-- Modelled from the spec: `absl::StrSplit(line, " ")` (line 164), vendored
third-party code outside the file under verification.  The spec: each input
line is split on single-space boundaries into a token sequence, and an empty
line yields an empty token sequence. -/
def strSplit (line : String) : List String :=
  if line = "" then [] else line.splitOn " "

/-- Mirrors the `process` closure for input_format piece, output_format
string (lines 110-113): decode the pieces to text and write one line; a
decode failure aborts (`CHECK_OK`). -/
def processPieceString (m : SPModel) (ps : List String) :
    List Event × Option String :=
  match m.decodePieces ps with
  | Except.ok s => ([Event.decodeP ps, Event.writeLine s], none)
  | Except.error e => ([Event.decodeP ps], some e)

/-- Mirrors the `process` closure for piece/proto (lines 115-117): decode to
a structured record, write nothing. -/
def processPieceProto (m : SPModel) (ps : List String) :
    List Event × Option String :=
  match m.decodePiecesProto ps with
  | Except.ok _ => ([Event.decodeP ps], none)
  | Except.error e => ([Event.decodeP ps], some e)

/-- Mirrors the `process_int` closure for map/string (lines 124-127): decode
the id batch to text and write one line. -/
def processMapString (m : SPModel) (ids : List Int) :
    List Event × Option String :=
  match m.decodeIds ids with
  | Except.ok s => ([Event.decodeI ids, Event.writeLine s], none)
  | Except.error e => ([Event.decodeI ids], some e)

/-- Mirrors the `process_int` closure for map/proto (lines 129-131). -/
def processMapProto (m : SPModel) (ids : List Int) :
    List Event × Option String :=
  match m.decodeIdsProto ids with
  | Except.ok _ => ([Event.decodeI ids], none)
  | Except.error e => ([Event.decodeI ids], some e)

/-- Mirrors the `process` closure for id/string (lines 138-141): convert the
tokens with `ToIds`, decode the ids to text, write one line. -/
def processIdString (m : SPModel) (ps : List String) :
    List Event × Option String :=
  match m.decodeIds (ToIds ps) with
  | Except.ok s => ([Event.decodeI (ToIds ps), Event.writeLine s], none)
  | Except.error e => ([Event.decodeI (ToIds ps)], some e)

/-- Mirrors the `process` closure for id/proto (lines 143-145). -/
def processIdProto (m : SPModel) (ps : List String) :
    List Event × Option String :=
  match m.decodeIdsProto (ToIds ps) with
  | Except.ok _ => ([Event.decodeI (ToIds ps)], none)
  | Except.error e => ([Event.decodeI (ToIds ps)], some e)

/-- Mirrors the `ReadLine` loop (lines 163-166): split each line and feed it
to the selected closure; a closure abort stops the run at that line. -/
def runLines (proc : List String → List Event × Option String) :
    List String → List Event × Option String
  | [] => ([], none)
  | line :: rest =>
      match (proc (strSplit line)).2 with
      | some e => ((proc (strSplit line)).1, some e)
      | none =>
          ((proc (strSplit line)).1 ++ (runLines proc rest).1,
           (runLines proc rest).2)

/-- Mirrors the text-format batch loop (lines 160-167): open each input file
(fatal if it cannot be opened, `CHECK_OK(input->status())`), then run the
closure over its lines. -/
def runTextFiles (fs : FileSystem)
    (proc : List String → List Event × Option String) :
    List String → List Event × Option String
  | [] => ([], none)
  | f :: rest =>
      match fs.textFile f with
      | none =>
          ([Event.openInput f], some ("cannot open input file: " ++ f))
      | some lines =>
          match (runLines proc lines).2 with
          | some e => (Event.openInput f :: (runLines proc lines).1, some e)
          | none =>
              (Event.openInput f :: (runLines proc lines).1 ++
                 (runTextFiles fs proc rest).1,
               (runTextFiles fs proc rest).2)

/-- Mirrors the map-format batch loop (lines 155-158): read each whole file
as a binary id vector and invoke the integer closure once per file. -/
def runMapFiles (fs : FileSystem)
    (proc : List Int → List Event × Option String) :
    List String → List Event × Option String
  | [] => ([], none)
  | f :: rest =>
      match (proc (readFileToVector fs f).2).2 with
      | some e =>
          ((readFileToVector fs f).1 ++ (proc (readFileToVector fs f).2).1,
           some e)
      | none =>
          ((readFileToVector fs f).1 ++ (proc (readFileToVector fs f).2).1 ++
             (runMapFiles fs proc rest).1,
           (runMapFiles fs proc rest).2)

/-- Mirrors the format dispatch (lines 108-152) combined with the batch loop
it feeds (lines 154-168).  In the source the closure is selected first,
aborting on an unknown format value, and the loop then re-tests
`input_format == "map"`; once dispatch has succeeded the format is exactly
one of the three valid values, so selecting the loop together with the
closure is behaviourally identical.  An unknown format yields the
`LOG(FATAL)` diagnostic and no batch events. -/
def batchRun (cfg : Config) (m : SPModel) (fs : FileSystem)
    (rest : List String) : List Event × Option String :=
  if cfg.input_format = "piece" then
    if cfg.output_format = "string" then
      runTextFiles fs (processPieceString m) rest
    else if cfg.output_format = "proto" then
      runTextFiles fs (processPieceProto m) rest
    else ([], some ("Unknown output format: " ++ cfg.output_format))
  else if cfg.input_format = "map" then
    if cfg.output_format = "string" then
      runMapFiles fs (processMapString m) rest
    else if cfg.output_format = "proto" then
      runMapFiles fs (processMapProto m) rest
    else ([], some ("Unknown output format: " ++ cfg.output_format))
  else if cfg.input_format = "id" then
    if cfg.output_format = "string" then
      runTextFiles fs (processIdString m) rest
    else if cfg.output_format = "proto" then
      runTextFiles fs (processIdProto m) rest
    else ([], some ("Unknown output format: " ++ cfg.output_format))
  else ([], some ("Unknown input format: " ++ cfg.input_format))

/-- Mirrors `main` (lines 68-171): build the input source list, require a
non-empty model path (`CHECK`, line 84), load the model and set extra
options (`CHECK_OK`, lines 87-88), open the output sink (`CHECK_OK`, lines
90-92), then dispatch and run the batch.  The result is the event trace
paired with `none` on success (exit status 0) or `some` diagnostic on a
fatal abort (non-zero exit status). -/
def run (cfg : Config) (m : SPModel) (fs : FileSystem) :
    List Event × Option String :=
  if cfg.model = "" then ([], some "CHECK failed: model flag must not be empty")
  else
    match m.load cfg.model with
    | Except.error e => ([Event.loadModel cfg.model], some e)
    | Except.ok _ =>
        match m.setExtraOpts cfg.extra_options with
        | Except.error e => ([Event.loadModel cfg.model], some e)
        | Except.ok _ =>
            if fs.canWrite cfg.output then
              (Event.loadModel cfg.model :: Event.openOutput cfg.output ::
                 (batchRun cfg m fs (restArgs cfg.input cfg.positional)).1,
               (batchRun cfg m fs (restArgs cfg.input cfg.positional)).2)
            else
              ([Event.loadModel cfg.model, Event.openOutput cfg.output],
               some ("cannot open output file: " ++ cfg.output))

/-- The lines written to the output sink during a trace, in order. -/
def outputLines (evs : List Event) : List String :=
  evs.filterMap fun e =>
    match e with
    | Event.writeLine s => some s
    | _ => none

/-- True exactly on decode-call events. -/
def isDecodeEvent : Event → Bool
  | Event.decodeP _ => true
  | Event.decodeI _ => true
  | _ => false

/-- Total number of input lines across the given files (an unopenable file
contributes nothing; a run that completes without a fatal abort opened every
file). -/
def totalLines (fs : FileSystem) (files : List String) : Nat :=
  (files.map fun f => ((fs.textFile f).getD []).length).sum

/-- A token that is, in its entirety, a decimal integer: an optional sign
followed by one or more decimal digits.  Stated from the claim's words
("a parseable decimal integer"), for comparison with the `atoi`-based
conversion the code performs. -/
def isDecimalIntegerToken (s : String) : Bool :=
  match s.data with
  | [] => false
  | c :: cs =>
      if c = '+' ∨ c = '-' then cs ≠ [] ∧ cs.all Char.isDigit
      else (c :: cs).all Char.isDigit

/-- Whether `atoi` finds any digit to consume: after optional C whitespace
and one optional sign, the next character is a decimal digit. -/
def hasDecimalPrefix : List Char → Bool
  | [] => false
  | c :: cs =>
      if isCSpace c then hasDecimalPrefix cs
      else if c = '-' ∨ c = '+' then
        match cs with
        | [] => false
        | d :: _ => d.isDigit
      else c.isDigit

/-- A model instance whose operations all succeed, decoding any piece batch
to the text "P" and any id batch to the text "I"; used to instantiate the
general theorems on concrete runs. -/
def okModel : SPModel :=
  ⟨fun _ => Except.ok (), fun _ => Except.ok (),
   fun _ => Except.ok "P", fun _ => Except.ok "I",
   fun _ => Except.ok (), fun _ => Except.ok ()⟩

/-- A concrete filesystem: `empty.txt` holds one empty line, `two.txt` holds
two lines, `ids.bin` holds the bytes 0x0F 0x00 0x2A 0x00, no other input
opens, and every output path opens. -/
def sampleFs : FileSystem :=
  ⟨fun f =>
      if f = "empty.txt" then some [""]
      else if f = "two.txt" then some ["a b", "c"] else none,
   fun f => if f = "ids.bin" then some [15, 0, 42, 0] else none,
   fun _ => true⟩

/-- A configuration with the given model path, `--input` value and format
pair; output path empty (default sink), no extra options, no positional
arguments. -/
def mkCfg (mp inp ifmt ofmt : String) : Config :=
  ⟨mp, inp, "", ifmt, ofmt, "", []⟩

theorem readBytesToVector_length : (bs : List Nat) →
    (readBytesToVector bs).length = bs.length / 2
  | [] => rfl
  | [_] => by simp [readBytesToVector]
  | _ :: _ :: rest => by
      have ih := readBytesToVector_length rest
      simp only [readBytesToVector, List.length_cons]
      omega

theorem readBytesToVector_getD : (bs : List Nat) → (i : Nat) →
    i < (readBytesToVector bs).length →
    (readBytesToVector bs).getD i 0 =
      ((bs.getD (2 * i) 0 % 256 + 256 * (bs.getD (2 * i + 1) 0 % 256) : Nat) : Int)
  | [], i, h => by simp [readBytesToVector] at h
  | [_], i, h => by simp [readBytesToVector] at h
  | b0 :: b1 :: rest, 0, _ => by simp [readBytesToVector]
  | b0 :: b1 :: rest, i + 1, h => by
      have hlt : i < (readBytesToVector rest).length := by
        simpa [readBytesToVector] using h
      have ih := readBytesToVector_getD rest i hlt
      have e1 : 2 * (i + 1) = 2 * i + 1 + 1 := by ring
      rw [e1]
      show (((b0 % 256 + 256 * (b1 % 256) : Nat) : Int) ::
          readBytesToVector rest).getD (i + 1) 0 = _
      simp only [List.getD_cons_succ]
      exact ih

theorem readBytesToVector_range : (bs : List Nat) →
    ∀ x ∈ readBytesToVector bs, 0 ≤ x ∧ x ≤ 65535
  | [] => by simp [readBytesToVector]
  | [_] => by simp [readBytesToVector]
  | b0 :: b1 :: rest => by
      intro x hx
      have hx2 : x = ((b0 % 256 + 256 * (b1 % 256) : Nat) : Int) ∨
          x ∈ readBytesToVector rest := by
        simpa [readBytesToVector] using hx
      rcases hx2 with h | h
      · subst h
        have hb0 : b0 % 256 < 256 := Nat.mod_lt _ (by omega)
        have hb1 : b1 % 256 < 256 := Nat.mod_lt _ (by omega)
        constructor
        · exact Int.natCast_nonneg _
        · omega
      · exact readBytesToVector_range rest x h

/-- C4: for every binary input file that opens successfully, the Binary ID
Reader yields exactly `bytes.length / 2` ids (a trailing odd byte is
dropped); element `i` is the unsigned little-endian 16-bit value of bytes
`2*i` and `2*i+1`, always in the range 0 to 65535 (no sign extension); and
the file with bytes 0x0F 0x00 0x2A 0x00 yields `[15, 42]`. -/
theorem binary_reader_le16 (fs : FileSystem) (f : String) (bytes : List Nat)
    (hopen : fs.binFile f = some bytes) :
    readFileToVector fs f = ([Event.openBinary f], readBytesToVector bytes) ∧
    (readBytesToVector bytes).length = bytes.length / 2 ∧
    (∀ i, i < (readBytesToVector bytes).length →
      (readBytesToVector bytes).getD i 0 =
        ((bytes.getD (2 * i) 0 % 256 + 256 * (bytes.getD (2 * i + 1) 0 % 256) : Nat) : Int)) ∧
    (∀ x ∈ readBytesToVector bytes, 0 ≤ x ∧ x ≤ 65535) ∧
    readBytesToVector [15, 0, 42, 0] = [15, 42] :=
  ⟨by simp [readFileToVector, hopen], readBytesToVector_length bytes,
   fun i h => readBytesToVector_getD bytes i h,
   readBytesToVector_range bytes, by decide⟩

theorem binary_reader_le16_witness :
    readFileToVector sampleFs "ids.bin" = ([Event.openBinary "ids.bin"], [15, 42]) :=
  ((binary_reader_le16 sampleFs "ids.bin" [15, 0, 42, 0] (by decide)).1).trans
    (by decide)

theorem atoiDigits_not_digit (acc : Int) (c : Char) (cs : List Char)
    (h : c.isDigit = false) : atoiDigits acc (c :: cs) = acc := by
  simp [atoiDigits, h]

theorem atoi_eq_zero_of_no_prefix : (cs : List Char) →
    hasDecimalPrefix cs = false → atoiChars cs = 0
  | [], _ => rfl
  | c :: cs, h => by
      by_cases hs : isCSpace c
      · have ih := atoi_eq_zero_of_no_prefix cs
          (by simpa [hasDecimalPrefix, hs] using h)
        simpa [atoiChars, hs] using ih
      · by_cases hm : c = '-'
        · subst hm
          have hsf : isCSpace '-' = false := by decide
          cases cs with
          | nil => simp [atoiChars, hsf, atoiDigits]
          | cons d ds =>
              have hd : d.isDigit = false := by
                simpa [hasDecimalPrefix, hsf] using h
              simp [atoiChars, hsf, atoiDigits_not_digit _ _ _ hd]
        · by_cases hp : c = '+'
          · subst hp
            have hsf : isCSpace '+' = false := by decide
            have hne : ¬('+' : Char) = '-' := by decide
            cases cs with
            | nil => simp [atoiChars, hsf, hne, atoiDigits]
            | cons d ds =>
                have hd : d.isDigit = false := by
                  simpa [hasDecimalPrefix, hsf, hne] using h
                simp [atoiChars, hsf, hne, atoiDigits_not_digit _ _ _ hd]
          · have hd : c.isDigit = false := by
              simpa [hasDecimalPrefix, hs, hm, hp] using h
            simp [atoiChars, hs, hm, hp, atoiDigits_not_digit _ _ _ hd]

/-- C3 counterexample: the token "12abc" is not a parseable decimal integer,
yet the id conversion yields 12, not 0 — `atoi` consumes the leading digit
run and ignores the rest, so a non-numeric token need not become 0. -/
theorem toIds_zero_counterexample :
    isDecimalIntegerToken "12abc" = false ∧ atoi "12abc" = 12 := by decide

/-- C3 (amended): the id conversion is total — every token of every batch is
converted, no error is possible (`ToIds` preserves the batch length) — and a
token in which `atoi` finds no digits (no decimal digit after optional C
whitespace and an optional sign) yields the integer 0; a token that starts
with digits yields the value of its longest leading digit run even when the
whole token is not a decimal integer. -/
theorem toIds_total_amended (pieces : List String) (s : String)
    (h : hasDecimalPrefix s.data = false) :
    (ToIds pieces).length = pieces.length ∧ atoi s = 0 :=
  ⟨by simp [ToIds], atoi_eq_zero_of_no_prefix s.data h⟩

theorem toIds_total_amended_witness :
    (ToIds ["12abc", "x"]).length = 2 ∧ atoi "x" = 0 :=
  toIds_total_amended ["12abc", "x"] "x" (by decide)

/-- C8: the input-source list is the `--input` file alone when that flag is
non-empty; otherwise the positional arguments in order; and standard input,
signalled by the empty path, when neither is given. -/
theorem restArgs_spec (input : String) (positional : List String) :
    (input ≠ "" → restArgs input positional = [input]) ∧
    (input = "" → positional ≠ [] → restArgs input positional = positional) ∧
    (input = "" → positional = [] → restArgs input positional = [""]) := by
  refine ⟨fun h => ?_, fun h hp => ?_, fun h hp => ?_⟩
  · simp [restArgs, h]
  · simp [restArgs, h, hp]
  · simp [restArgs, h, hp]

theorem restArgs_spec_witness :
    restArgs "in.txt" ["a", "b"] = ["in.txt"] ∧
    restArgs "" ["a", "b"] = ["a", "b"] ∧
    restArgs "" [] = [""] :=
  ⟨(restArgs_spec "in.txt" ["a", "b"]).1 (by decide),
   (restArgs_spec "" ["a", "b"]).2.1 rfl (by decide),
   (restArgs_spec "" []).2.2 rfl rfl⟩

/-- C9: the run is deterministic — identical configuration, model and file
contents give identical event traces, hence byte-identical output lines.
The embedding is a pure function of its inputs, reflecting the source's
single-threaded, nondeterminism-free control flow. -/
theorem run_deterministic (cfg1 cfg2 : Config) (m1 m2 : SPModel)
    (fs1 fs2 : FileSystem) (hc : cfg1 = cfg2) (hm : m1 = m2)
    (hf : fs1 = fs2) :
    run cfg1 m1 fs1 = run cfg2 m2 fs2 ∧
    outputLines (run cfg1 m1 fs1).1 = outputLines (run cfg2 m2 fs2).1 := by
  subst hc; subst hm; subst hf; exact ⟨rfl, rfl⟩

theorem run_deterministic_witness :
    run (mkCfg "m" "empty.txt" "piece" "string") okModel sampleFs =
      run (mkCfg "m" "empty.txt" "piece" "string") okModel sampleFs ∧
    outputLines (run (mkCfg "m" "empty.txt" "piece" "string") okModel sampleFs).1 =
      outputLines (run (mkCfg "m" "empty.txt" "piece" "string") okModel sampleFs).1 :=
  run_deterministic _ _ _ _ _ _ rfl rfl rfl

/-- C1 (with `absl::StrSplit` and the model's decode-on-empty behaviour
modelled from the spec): for input formats piece and id with output format
string, an empty input line invokes the selected closure with the empty
token sequence, the decode call succeeds, and exactly one output line is
written for that line. -/
theorem empty_line_decode (cfg : Config) (m : SPModel) (fs : FileSystem)
    (f : String) (s1 s2 : String)
    (hm : cfg.model ≠ "") (hl : m.load cfg.model = Except.ok ())
    (he : m.setExtraOpts cfg.extra_options = Except.ok ())
    (hw : fs.canWrite cfg.output = true)
    (hin : cfg.input = f) (hf : f ≠ "")
    (hfile : fs.textFile f = some [""])
    (hdp : m.decodePieces [] = Except.ok s1)
    (hdi : m.decodeIds [] = Except.ok s2) :
    (cfg.input_format = "piece" → cfg.output_format = "string" →
      run cfg m fs =
        ([Event.loadModel cfg.model, Event.openOutput cfg.output,
          Event.openInput f, Event.decodeP [], Event.writeLine s1], none)) ∧
    (cfg.input_format = "id" → cfg.output_format = "string" →
      run cfg m fs =
        ([Event.loadModel cfg.model, Event.openOutput cfg.output,
          Event.openInput f, Event.decodeI [], Event.writeLine s2], none)) := by
  have hrest : restArgs cfg.input cfg.positional = [f] := by
    simp [restArgs, hin, hf]
  constructor
  · intro hif hof
    simp [run, hm, hl, he, hw, hrest, batchRun, hif, hof, runTextFiles, hfile,
      runLines, strSplit, processPieceString, hdp]
  · intro hif hof
    simp [run, hm, hl, he, hw, hrest, batchRun, hif, hof, runTextFiles, hfile,
      runLines, strSplit, processIdString, ToIds, hdi]

theorem empty_line_decode_witness :
    run (mkCfg "m" "empty.txt" "piece" "string") okModel sampleFs =
      ([Event.loadModel "m", Event.openOutput "",
        Event.openInput "empty.txt", Event.decodeP [], Event.writeLine "P"],
       none) :=
  (empty_line_decode (mkCfg "m" "empty.txt" "piece" "string") okModel
      sampleFs "empty.txt" "P" "I" (by decide) rfl rfl rfl rfl (by decide)
      (by decide) rfl rfl).1 rfl rfl

/-- C2 (`CHECK_OK` fatality on the text path modelled from the spec): an
unopenable input is fatal for both text input formats, piece and id (the
run aborts with `some` diagnostic), while for input format map the same
condition only makes the Binary ID Reader emit an error-channel message and
return the empty id sequence, and the run completes successfully. -/
theorem open_failure_asymmetry (m : SPModel) (fs : FileSystem) (mp f : String)
    (hm : mp ≠ "") (hf : f ≠ "")
    (hl : m.load mp = Except.ok ()) (he : m.setExtraOpts "" = Except.ok ())
    (hw : fs.canWrite "" = true)
    (htxt : fs.textFile f = none) (hbin : fs.binFile f = none)
    (s : String) (hdi : m.decodeIds [] = Except.ok s) :
    (run (mkCfg mp f "piece" "string") m fs).2 =
        some ("cannot open input file: " ++ f) ∧
    (run (mkCfg mp f "id" "string") m fs).2 =
        some ("cannot open input file: " ++ f) ∧
    (readFileToVector fs f).2 = [] ∧
    Event.errMsg ("Error: Unable to open the file: " ++ f) ∈
        (readFileToVector fs f).1 ∧
    (run (mkCfg mp f "map" "string") m fs).2 = none ∧
    Event.errMsg ("Error: Unable to open the file: " ++ f) ∈
        (run (mkCfg mp f "map" "string") m fs).1 := by
  have hrest : restArgs f ([] : List String) = [f] := by
    simp [restArgs, hf]
  refine ⟨?_, ?_, ?_, ?_, ?_, ?_⟩
  · simp [run, mkCfg, hm, hl, he, hw, hrest, batchRun, runTextFiles, htxt]
  · simp [run, mkCfg, hm, hl, he, hw, hrest, batchRun, runTextFiles, htxt]
  · simp [readFileToVector, hbin]
  · simp [readFileToVector, hbin]
  · simp [run, mkCfg, hm, hl, he, hw, hrest, batchRun, runMapFiles,
      readFileToVector, hbin, processMapString, hdi]
  · simp [run, mkCfg, hm, hl, he, hw, hrest, batchRun, runMapFiles,
      readFileToVector, hbin, processMapString, hdi]

theorem open_failure_asymmetry_witness :
    (run (mkCfg "m" "gone" "piece" "string") okModel sampleFs).2 =
        some ("cannot open input file: " ++ "gone") ∧
    (run (mkCfg "m" "gone" "id" "string") okModel sampleFs).2 =
        some ("cannot open input file: " ++ "gone") ∧
    (readFileToVector sampleFs "gone").2 = [] ∧
    Event.errMsg ("Error: Unable to open the file: " ++ "gone") ∈
        (readFileToVector sampleFs "gone").1 ∧
    (run (mkCfg "m" "gone" "map" "string") okModel sampleFs).2 = none ∧
    Event.errMsg ("Error: Unable to open the file: " ++ "gone") ∈
        (run (mkCfg "m" "gone" "map" "string") okModel sampleFs).1 :=
  open_failure_asymmetry okModel sampleFs "m" "gone" (by decide) (by decide)
    rfl rfl rfl (by decide) (by decide) "I" rfl

/-- C5: when the input format is none of piece, map, id, or the output
format is none of string, proto, the run aborts fatally (non-zero status,
modelled as a `some` diagnostic) with an unknown-format message naming the
offending flag value, and the trace contains no decode call on the model.
When both flags are invalid the input-format diagnostic is the one
reported. -/
theorem unknown_format_fatal (cfg : Config) (m : SPModel) (fs : FileSystem)
    (hm : cfg.model ≠ "") (hl : m.load cfg.model = Except.ok ())
    (he : m.setExtraOpts cfg.extra_options = Except.ok ())
    (hw : fs.canWrite cfg.output = true) :
    (cfg.input_format ≠ "piece" → cfg.input_format ≠ "map" →
     cfg.input_format ≠ "id" →
      (run cfg m fs).2 = some ("Unknown input format: " ++ cfg.input_format) ∧
      ∀ e ∈ (run cfg m fs).1, isDecodeEvent e = false) ∧
    ((cfg.input_format = "piece" ∨ cfg.input_format = "map" ∨
      cfg.input_format = "id") →
     cfg.output_format ≠ "string" → cfg.output_format ≠ "proto" →
      (run cfg m fs).2 = some ("Unknown output format: " ++ cfg.output_format) ∧
      ∀ e ∈ (run cfg m fs).1, isDecodeEvent e = false) := by
  constructor
  · intro h1 h2 h3
    have hrun : run cfg m fs =
        ([Event.loadModel cfg.model, Event.openOutput cfg.output],
         some ("Unknown input format: " ++ cfg.input_format)) := by
      simp [run, hm, hl, he, hw, batchRun, h1, h2, h3]
    simp [hrun, isDecodeEvent]
  · intro hin h4 h5
    rcases hin with h1 | h1 | h1
    all_goals
      have hrun : run cfg m fs =
          ([Event.loadModel cfg.model, Event.openOutput cfg.output],
           some ("Unknown output format: " ++ cfg.output_format)) := by
        simp [run, hm, hl, he, hw, batchRun, h1, h4, h5]
    all_goals simp [hrun, isDecodeEvent]

theorem unknown_format_fatal_witness :
    (run (mkCfg "m" "in" "xyz" "string") okModel sampleFs).2 =
        some ("Unknown input format: " ++ "xyz") ∧
    ∀ e ∈ (run (mkCfg "m" "in" "xyz" "string") okModel sampleFs).1,
      isDecodeEvent e = false :=
  (unknown_format_fatal (mkCfg "m" "in" "xyz" "string") okModel sampleFs
      (by decide) rfl rfl rfl).1 (by decide) (by decide) (by decide)

/-- C6 counterexample: with an otherwise valid setup and the configuration
error `--input_format=xyz`, the run has read the model file and opened the
output sink by the time the failing format check aborts it, so a
configuration error is not always detected before any I/O. -/
theorem config_error_ordering_counterexample :
    Event.loadModel "m" ∈
        (run (mkCfg "m" "in" "xyz" "string") okModel sampleFs).1 ∧
    Event.openOutput "" ∈
        (run (mkCfg "m" "in" "xyz" "string") okModel sampleFs).1 ∧
    (run (mkCfg "m" "in" "xyz" "string") okModel sampleFs).2 =
      some ("Unknown input format: " ++ "xyz") := by decide

/-- C6 (amended): a missing model path aborts before any I/O — the event
trace of such a run is empty.  An unknown input or output format value also
aborts the run, but only after the model file has been read and the output
sink opened; no input file is opened or read and no decode call occurs
before that abort. -/
theorem config_error_ordering (cfg : Config) (m : SPModel) (fs : FileSystem) :
    (cfg.model = "" →
      run cfg m fs = ([], some "CHECK failed: model flag must not be empty")) ∧
    (cfg.model ≠ "" → m.load cfg.model = Except.ok () →
     m.setExtraOpts cfg.extra_options = Except.ok () →
     fs.canWrite cfg.output = true →
     cfg.input_format ≠ "piece" → cfg.input_format ≠ "map" →
     cfg.input_format ≠ "id" →
      (run cfg m fs).1 =
        [Event.loadModel cfg.model, Event.openOutput cfg.output] ∧
      (run cfg m fs).2 =
        some ("Unknown input format: " ++ cfg.input_format)) ∧
    (cfg.model ≠ "" → m.load cfg.model = Except.ok () →
     m.setExtraOpts cfg.extra_options = Except.ok () →
     fs.canWrite cfg.output = true →
     (cfg.input_format = "piece" ∨ cfg.input_format = "map" ∨
      cfg.input_format = "id") →
     cfg.output_format ≠ "string" → cfg.output_format ≠ "proto" →
      (run cfg m fs).1 =
        [Event.loadModel cfg.model, Event.openOutput cfg.output] ∧
      (run cfg m fs).2 =
        some ("Unknown output format: " ++ cfg.output_format)) := by
  refine ⟨fun h => by simp [run, h], ?_, ?_⟩
  · intro hm hl he hw h1 h2 h3
    constructor
    · simp [run, hm, hl, he, hw, batchRun, h1, h2, h3]
    · simp [run, hm, hl, he, hw, batchRun, h1, h2, h3]
  · intro hm hl he hw hin h4 h5
    rcases hin with h1 | h1 | h1
    all_goals exact
      ⟨by simp [run, hm, hl, he, hw, batchRun, h1, h4, h5],
       by simp [run, hm, hl, he, hw, batchRun, h1, h4, h5]⟩

theorem config_error_ordering_witness :
    run (mkCfg "" "in" "piece" "string") okModel sampleFs =
      ([], some "CHECK failed: model flag must not be empty") :=
  (config_error_ordering (mkCfg "" "in" "piece" "string") okModel
    sampleFs).1 rfl

/-- C10: for input format map with output format string, an unopenable input
file still leads to exactly one invocation of the integer closure with the
empty id sequence: the trace shows the failed open, the error-channel
message, one decode call on the empty id list, and one written output line,
and the run does not abort. -/
theorem map_unopenable_still_decodes (cfg : Config) (m : SPModel)
    (fs : FileSystem) (f : String) (s : String)
    (hm : cfg.model ≠ "") (hl : m.load cfg.model = Except.ok ())
    (he : m.setExtraOpts cfg.extra_options = Except.ok ())
    (hw : fs.canWrite cfg.output = true)
    (hin : cfg.input = f) (hf : f ≠ "")
    (hif : cfg.input_format = "map") (hof : cfg.output_format = "string")
    (hbin : fs.binFile f = none)
    (hdi : m.decodeIds [] = Except.ok s) :
    run cfg m fs =
      ([Event.loadModel cfg.model, Event.openOutput cfg.output,
        Event.openBinary f,
        Event.errMsg ("Error: Unable to open the file: " ++ f),
        Event.decodeI [], Event.writeLine s], none) := by
  have hrest : restArgs cfg.input cfg.positional = [f] := by
    simp [restArgs, hin, hf]
  simp [run, hm, hl, he, hw, hrest, batchRun, hif, hof, runMapFiles,
    readFileToVector, hbin, processMapString, hdi]

theorem map_unopenable_still_decodes_witness :
    run (mkCfg "m" "gone" "map" "string") okModel sampleFs =
      ([Event.loadModel "m", Event.openOutput "", Event.openBinary "gone",
        Event.errMsg ("Error: Unable to open the file: " ++ "gone"),
        Event.decodeI [], Event.writeLine "I"], none) :=
  map_unopenable_still_decodes (mkCfg "m" "gone" "map" "string") okModel
    sampleFs "gone" "I" (by decide) rfl rfl rfl rfl (by decide) rfl rfl
    (by decide) rfl

theorem outputLines_append (a b : List Event) :
    outputLines (a ++ b) = outputLines a ++ outputLines b := by
  simp [outputLines]

theorem outputLines_loadModel (p : String) (evs : List Event) :
    outputLines (Event.loadModel p :: evs) = outputLines evs := by
  simp [outputLines]

theorem outputLines_openOutput (p : String) (evs : List Event) :
    outputLines (Event.openOutput p :: evs) = outputLines evs := by
  simp [outputLines]

theorem outputLines_openInput (p : String) (evs : List Event) :
    outputLines (Event.openInput p :: evs) = outputLines evs := by
  simp [outputLines]

theorem outputLines_readFileToVector (fs : FileSystem) (f : String) :
    outputLines (readFileToVector fs f).1 = [] := by
  cases hb : fs.binFile f <;> simp [readFileToVector, hb, outputLines]

theorem processPieceString_writes_one (m : SPModel) (ps : List String)
    (h : (processPieceString m ps).2 = none) :
    (outputLines (processPieceString m ps).1).length = 1 := by
  cases hd : m.decodePieces ps with
  | ok s => simp [processPieceString, hd, outputLines]
  | error e => simp [processPieceString, hd] at h

theorem processIdString_writes_one (m : SPModel) (ps : List String)
    (h : (processIdString m ps).2 = none) :
    (outputLines (processIdString m ps).1).length = 1 := by
  cases hd : m.decodeIds (ToIds ps) with
  | ok s => simp [processIdString, hd, outputLines]
  | error e => simp [processIdString, hd] at h

theorem processMapString_writes_one (m : SPModel) (ids : List Int)
    (h : (processMapString m ids).2 = none) :
    (outputLines (processMapString m ids).1).length = 1 := by
  cases hd : m.decodeIds ids with
  | ok s => simp [processMapString, hd, outputLines]
  | error e => simp [processMapString, hd] at h

theorem processPieceProto_writes_none (m : SPModel) (ps : List String) :
    outputLines (processPieceProto m ps).1 = [] := by
  cases hd : m.decodePiecesProto ps <;>
    simp [processPieceProto, hd, outputLines]

theorem processIdProto_writes_none (m : SPModel) (ps : List String) :
    outputLines (processIdProto m ps).1 = [] := by
  cases hd : m.decodeIdsProto (ToIds ps) <;>
    simp [processIdProto, hd, outputLines]

theorem processMapProto_writes_none (m : SPModel) (ids : List Int) :
    outputLines (processMapProto m ids).1 = [] := by
  cases hd : m.decodeIdsProto ids <;> simp [processMapProto, hd, outputLines]

theorem runLines_count (proc : List String → List Event × Option String)
    (hp : ∀ ps, (proc ps).2 = none → (outputLines (proc ps).1).length = 1) :
    (lines : List String) → (runLines proc lines).2 = none →
    (outputLines (runLines proc lines).1).length = lines.length
  | [], _ => rfl
  | line :: rest, h => by
      cases hpr : (proc (strSplit line)).2 with
      | some e => simp [runLines, hpr] at h
      | none =>
          have h2 : (runLines proc rest).2 = none := by
            simpa [runLines, hpr] using h
          have ih := runLines_count proc hp rest h2
          simp [runLines, hpr, outputLines_append, ih, hp _ hpr]
          omega

theorem runTextFiles_count (fs : FileSystem)
    (proc : List String → List Event × Option String)
    (hp : ∀ ps, (proc ps).2 = none → (outputLines (proc ps).1).length = 1) :
    (files : List String) → (runTextFiles fs proc files).2 = none →
    (outputLines (runTextFiles fs proc files).1).length = totalLines fs files
  | [], _ => by simp [runTextFiles, outputLines, totalLines]
  | f :: rest, h => by
      cases hof : fs.textFile f with
      | none => simp [runTextFiles, hof] at h
      | some lines =>
          cases hrl : (runLines proc lines).2 with
          | some e => simp [runTextFiles, hof, hrl] at h
          | none =>
              have h2 : (runTextFiles fs proc rest).2 = none := by
                simpa [runTextFiles, hof, hrl] using h
              have ih := runTextFiles_count fs proc hp rest h2
              have hc := runLines_count proc hp lines hrl
              have hb : runTextFiles fs proc (f :: rest) =
                  (Event.openInput f :: (runLines proc lines).1 ++
                     (runTextFiles fs proc rest).1,
                   (runTextFiles fs proc rest).2) := by
                simp [runTextFiles, hof, hrl]
              rw [hb]
              simp only [outputLines_openInput, outputLines_append,
                List.length_append, hc, ih]
              simp [totalLines, hof]

theorem runMapFiles_count (fs : FileSystem)
    (proc : List Int → List Event × Option String)
    (hp : ∀ ids, (proc ids).2 = none → (outputLines (proc ids).1).length = 1) :
    (files : List String) → (runMapFiles fs proc files).2 = none →
    (outputLines (runMapFiles fs proc files).1).length = files.length
  | [], _ => rfl
  | f :: rest, h => by
      cases hpr : (proc (readFileToVector fs f).2).2 with
      | some e => simp [runMapFiles, hpr] at h
      | none =>
          have h2 : (runMapFiles fs proc rest).2 = none := by
            simpa [runMapFiles, hpr] using h
          have ih := runMapFiles_count fs proc hp rest h2
          have hb : runMapFiles fs proc (f :: rest) =
              ((readFileToVector fs f).1 ++ (proc (readFileToVector fs f).2).1 ++
                 (runMapFiles fs proc rest).1,
               (runMapFiles fs proc rest).2) := by
            simp [runMapFiles, hpr]
          rw [hb]
          simp only [outputLines_append, List.length_append,
            outputLines_readFileToVector, hp _ hpr, ih, List.length_nil,
            List.length_cons]
          omega

theorem runLines_writes_none
    (proc : List String → List Event × Option String)
    (hp : ∀ ps, outputLines (proc ps).1 = []) :
    (lines : List String) → outputLines (runLines proc lines).1 = []
  | [] => rfl
  | line :: rest => by
      cases hpr : (proc (strSplit line)).2 with
      | some e => simp [runLines, hpr, hp]
      | none =>
          simp [runLines, hpr, outputLines_append, hp,
            runLines_writes_none proc hp rest]

theorem runTextFiles_writes_none (fs : FileSystem)
    (proc : List String → List Event × Option String)
    (hp : ∀ ps, outputLines (proc ps).1 = []) :
    (files : List String) → outputLines (runTextFiles fs proc files).1 = []
  | [] => rfl
  | f :: rest => by
      cases hof : fs.textFile f with
      | none => simp [runTextFiles, hof, outputLines]
      | some lines =>
          have hl := runLines_writes_none proc hp lines
          cases hrl : (runLines proc lines).2 with
          | some e => simp [runTextFiles, hof, hrl, outputLines_openInput, hl]
          | none =>
              simp [runTextFiles, hof, hrl, outputLines_openInput,
                outputLines_append, hl,
                runTextFiles_writes_none fs proc hp rest]

theorem runMapFiles_writes_none (fs : FileSystem)
    (proc : List Int → List Event × Option String)
    (hp : ∀ ids, outputLines (proc ids).1 = []) :
    (files : List String) → outputLines (runMapFiles fs proc files).1 = []
  | [] => rfl
  | f :: rest => by
      cases hpr : (proc (readFileToVector fs f).2).2 with
      | some e =>
          simp [runMapFiles, hpr, outputLines_append,
            outputLines_readFileToVector, hp]
      | none =>
          simp [runMapFiles, hpr, outputLines_append,
            outputLines_readFileToVector, hp,
            runMapFiles_writes_none fs proc hp rest]

theorem batchRun_text_count (cfg : Config) (m : SPModel) (fs : FileSystem)
    (rest : List String)
    (hin : cfg.input_format = "piece" ∨ cfg.input_format = "id")
    (hof : cfg.output_format = "string")
    (h : (batchRun cfg m fs rest).2 = none) :
    (outputLines (batchRun cfg m fs rest).1).length = totalLines fs rest := by
  rcases hin with h1 | h1
  · have hb : batchRun cfg m fs rest =
        runTextFiles fs (processPieceString m) rest := by
      simp [batchRun, h1, hof]
    rw [hb] at h ⊢
    exact runTextFiles_count fs _
      (fun ps => processPieceString_writes_one m ps) rest h
  · have hb : batchRun cfg m fs rest =
        runTextFiles fs (processIdString m) rest := by
      simp [batchRun, h1, hof]
    rw [hb] at h ⊢
    exact runTextFiles_count fs _
      (fun ps => processIdString_writes_one m ps) rest h

theorem batchRun_map_count (cfg : Config) (m : SPModel) (fs : FileSystem)
    (rest : List String)
    (h1 : cfg.input_format = "map") (hof : cfg.output_format = "string")
    (h : (batchRun cfg m fs rest).2 = none) :
    (outputLines (batchRun cfg m fs rest).1).length = rest.length := by
  have hb : batchRun cfg m fs rest =
      runMapFiles fs (processMapString m) rest := by
    simp [batchRun, h1, hof]
  rw [hb] at h ⊢
  exact runMapFiles_count fs _
    (fun ids => processMapString_writes_one m ids) rest h

theorem batchRun_proto_writes_none (cfg : Config) (m : SPModel)
    (fs : FileSystem) (rest : List String)
    (hof : cfg.output_format = "proto") :
    outputLines (batchRun cfg m fs rest).1 = [] := by
  by_cases h1 : cfg.input_format = "piece"
  · simpa [batchRun, h1, hof] using
      runTextFiles_writes_none fs _
        (fun ps => processPieceProto_writes_none m ps) rest
  · by_cases h2 : cfg.input_format = "map"
    · simpa [batchRun, h1, h2, hof] using
        runMapFiles_writes_none fs _
          (fun ids => processMapProto_writes_none m ids) rest
    · by_cases h3 : cfg.input_format = "id"
      · simpa [batchRun, h1, h2, h3, hof] using
          runTextFiles_writes_none fs _
            (fun ps => processIdProto_writes_none m ps) rest
      · simp [batchRun, h1, h2, h3, outputLines]

theorem run_success_decomp (cfg : Config) (m : SPModel) (fs : FileSystem)
    (h : (run cfg m fs).2 = none) :
    outputLines (run cfg m fs).1 =
      outputLines (batchRun cfg m fs (restArgs cfg.input cfg.positional)).1 ∧
    (batchRun cfg m fs (restArgs cfg.input cfg.positional)).2 = none := by
  by_cases hm : cfg.model = ""
  · simp [run, hm] at h
  · cases hl : m.load cfg.model with
    | error e => simp [run, hm, hl] at h
    | ok u =>
        cases u
        cases he : m.setExtraOpts cfg.extra_options with
        | error e => simp [run, hm, hl, he] at h
        | ok u2 =>
            cases u2
            by_cases hw : fs.canWrite cfg.output
            · refine ⟨?_, ?_⟩
              · have hrun : (run cfg m fs).1 =
                    Event.loadModel cfg.model :: Event.openOutput cfg.output ::
                      (batchRun cfg m fs
                        (restArgs cfg.input cfg.positional)).1 := by
                  simp [run, hm, hl, he, hw]
                rw [hrun, outputLines_loadModel, outputLines_openOutput]
              · simpa [run, hm, hl, he, hw] using h
            · simp [run, hm, hl, he, hw] at h

theorem run_proto_writes_none (cfg : Config) (m : SPModel) (fs : FileSystem)
    (hof : cfg.output_format = "proto") :
    outputLines (run cfg m fs).1 = [] := by
  have hb : outputLines
      (batchRun cfg m fs (restArgs cfg.input cfg.positional)).1 = [] :=
    batchRun_proto_writes_none cfg m fs _ hof
  by_cases hm : cfg.model = ""
  · simp [run, hm, outputLines]
  · cases hl : m.load cfg.model with
    | error e => simp [run, hm, hl, outputLines]
    | ok u =>
        cases u
        cases he : m.setExtraOpts cfg.extra_options with
        | error e => simp [run, hm, hl, he, outputLines]
        | ok u2 =>
            cases u2
            by_cases hw : fs.canWrite cfg.output
            · have hrun : (run cfg m fs).1 =
                  Event.loadModel cfg.model :: Event.openOutput cfg.output ::
                    (batchRun cfg m fs
                      (restArgs cfg.input cfg.positional)).1 := by
                simp [run, hm, hl, he, hw]
              rw [hrun, outputLines_loadModel, outputLines_openOutput, hb]
            · have hrun : (run cfg m fs).1 =
                  [Event.loadModel cfg.model, Event.openOutput cfg.output] := by
                simp [run, hm, hl, he, hw]
              rw [hrun]
              simp [outputLines]

/-- C7: with output format string, every closure invocation that completes
writes exactly one line, so a run that finishes without a fatal abort writes
one output line per input line for the text input formats and one output
line per input file for the map format; with output format proto, nothing
is ever written to the output sink. -/
theorem output_line_counts (cfg : Config) (m : SPModel) (fs : FileSystem) :
    ((cfg.input_format = "piece" ∨ cfg.input_format = "id") →
     cfg.output_format = "string" → (run cfg m fs).2 = none →
      (outputLines (run cfg m fs).1).length =
        totalLines fs (restArgs cfg.input cfg.positional)) ∧
    (cfg.input_format = "map" → cfg.output_format = "string" →
     (run cfg m fs).2 = none →
      (outputLines (run cfg m fs).1).length =
        (restArgs cfg.input cfg.positional).length) ∧
    (cfg.output_format = "proto" → outputLines (run cfg m fs).1 = []) := by
  refine ⟨fun hin hof h => ?_, fun hin hof h => ?_, fun hof => ?_⟩
  · obtain ⟨ho, hb⟩ := run_success_decomp cfg m fs h
    rw [ho]
    exact batchRun_text_count cfg m fs _ hin hof hb
  · obtain ⟨ho, hb⟩ := run_success_decomp cfg m fs h
    rw [ho]
    exact batchRun_map_count cfg m fs _ hin hof hb
  · exact run_proto_writes_none cfg m fs hof

theorem output_line_counts_witness :
    (outputLines
      (run (mkCfg "m" "two.txt" "piece" "string") okModel sampleFs).1).length =
      totalLines sampleFs
        (restArgs (mkCfg "m" "two.txt" "piece" "string").input
          (mkCfg "m" "two.txt" "piece" "string").positional) :=
  (output_line_counts (mkCfg "m" "two.txt" "piece" "string") okModel
    sampleFs).1 (Or.inl rfl) rfl (by decide)
